import Mathlib

/-!
Verification of the 03_levels_and_zones service (level/zone processing stage).

Shallow embedding of `src/main.py` (the reset-aware service; `src/main_streams.py`
is the legacy variant without the run-mode gate, the wait ceiling and reset
handling, and the specification's coordinator/orchestrator sections describe the
reset-aware service).

Modelling choices:
  * Redis pub/sub polling is embedded as an explicit finite trace of poll
    results: each `PollStep` is the elapsed wall-clock seconds observed at the
    top of the loop paired with what `pub.get_message` returned on that
    iteration (`noMessage` carries the ingestion-status `mode` hash field the
    loop would read on a poll timeout; `msg` carries a pub/sub message).
    When the trace is exhausted the embedded wait returns `Option.none`
    (the real loop would keep polling).
  * Store writes are modelled by explicit counts / returned records; functions
    of the external `mgot_utils` library that the embedded source calls
    (`identify_achievements`, `fetch_many`, the batched pipeline writes) are
    abstracted as fields of a `ProcessEnv` parameter, since their bodies are
    not part of this repository's sources.
  * Logging (`print`) is dropped; prices/OHLC fields are not needed by any
    embedded code path and are omitted from the record types.
-/

/-- Sync configuration from `src/main.py`: `SYNC_TIMEOUT_SECONDS = 5`
(check for mode changes every 5 seconds). -/
def SYNC_TIMEOUT_SECONDS : Nat := 5

/-- Sync configuration from `src/main.py`: `MAX_SYNC_WAIT_SECONDS = 60`
(maximum time to wait for sync before giving up). -/
def MAX_SYNC_WAIT_SECONDS : Nat := 60

/-- A bar record, restricted to the fields the embedded code reads
(`bar.id`, `bar.symbol`, `bar.timeframe`, `bar.time`). -/
structure Bar where
  id : String
  symbol : String
  timeframe : String
  time : Int
deriving DecidableEq

/-- A pub/sub message as returned by `pub.get_message` (already decoded). -/
structure Msg where
  type : String
  data : String
deriving DecidableEq

/-- A level record, restricted to the fields the embedded code reads
(`lvl.zone_id`, `lvl.name`; identity kept for reference). -/
structure Level where
  id : String
  zone_id : String
  name : String
deriving DecidableEq

/-- A consolidation-zone record, restricted to the fields
`_handle_consolidation_level_loss` reads and writes. -/
structure Consolidation where
  id : String
  completion : String
  direction : Int
  broken_level : String
  level_lost : Int
  level_lost_time : Int
deriving DecidableEq

/-- A zone record as handled opaquely by `process_zone_updates`. -/
structure Zone where
  id : String
deriving DecidableEq

/-- `mode if mode else "stopped"`: a missing hash field (`None`) and an empty
string are both falsy in Python, so both map to `"stopped"`. -/
def ingestion_mode_of : Option String → String
  | some mode => if mode = "" then "stopped" else mode
  | Option.none => "stopped"

/-- `get_ingestion_mode` from `src/main.py`: read
`ingestion:{symbol}:status / mode` from the store (embedded as a map from
symbol to the optional hash-field value) and default to `"stopped"`. -/
def get_ingestion_mode (status : String → Option String) (symbol : String) : String :=
  ingestion_mode_of (status symbol)

/-- One `pub.get_message(timeout=...)` result inside the wait loop:
either no message within the polling interval (carrying the ingestion-status
`mode` field that the loop then reads), or a pub/sub message. -/
inductive PollEvent where
  | noMessage (statusMode : Option String)
  | msg (m : Msg)
deriving DecidableEq

/-- Elapsed seconds at the top of the loop iteration, paired with what the
poll of that iteration returned. -/
abbrev PollStep := Nat × PollEvent

/-- The outcomes of the synchronization wait, named as in the specification's
coordinator state machine. `sync_with_achiever` in the source returns `True`
exactly for `confirmed` and `False` for every other outcome. -/
inductive SyncResult where
  | confirmed
  | timedOut
  | modeInterrupted
  | reset
  | stale
deriving DecidableEq

/-- Embedding of Python `data.split(':')` (single-character separator),
written by structural recursion over the character list so that it evaluates
inside the kernel: accumulate the current segment, cut at every `':'`.
`"" ↦ [""]`, `"a:" ↦ ["a", ""]`, exactly as in Python. -/
def splitOnColonAux : List Char → List Char → List String
  | [], acc => [String.mk acc.reverse]
  | c :: cs, acc =>
    if c = ':' then String.mk acc.reverse :: splitOnColonAux cs []
    else splitOnColonAux cs (c :: acc)

/-- Python `data.split(':')`. -/
def splitOnColon (s : String) : List String :=
  splitOnColonAux s.toList []

/-- The value of a decimal digit, `Option.none` for any other character. -/
def digitVal? (c : Char) : Option Nat :=
  if '0' ≤ c ∧ c ≤ '9' then some (c.toNat - '0'.toNat) else Option.none

/-- Left fold of decimal digits; `Option.none` as soon as a non-digit shows. -/
def digitsToNatAux : List Char → Nat → Option Nat
  | [], acc => some acc
  | c :: cs, acc =>
    match digitVal? c with
    | some d => digitsToNatAux cs (acc * 10 + d)
    | Option.none => Option.none

/-- Embedding of Python `int(s)` on the payload segments: an optional sign
followed by a non-empty run of decimal digits; anything else is `Option.none`
(Python raises `ValueError`, which the source catches and ignores). Python's
tolerance for surrounding whitespace and digit-group underscores is not
modelled; no payload considered here uses them. -/
def parseIntPy (s : String) : Option Int :=
  match s.toList with
  | [] => Option.none
  | '-' :: cs =>
    if cs = [] then Option.none
    else (digitsToNatAux cs 0).map (fun n => -(n : Int))
  | '+' :: cs =>
    if cs = [] then Option.none
    else (digitsToNatAux cs 0).map (fun n => (n : Int))
  | cs => (digitsToNatAux cs 0).map (fun n => (n : Int))

/-- The newer-bar test of `sync_with_achiever` (`src/main.py` lines 242-251):
split the payload on `:`; when there are at least 4 parts and the fourth
parses as an integer, the message is stale for `bar` when the first two parts
equal the bar's symbol and timeframe and the parsed time is strictly later.
A failing integer parse (Python `ValueError`) yields `false` (continue). -/
def isStaleNotification (bar : Bar) (data : String) : Bool :=
  let parts := splitOnColon data
  if 4 ≤ parts.length then
    match parseIntPy (parts.getD 3 "") with
    | some msg_time =>
        (parts.getD 0 "" == bar.symbol) && (parts.getD 1 "" == bar.timeframe)
          && decide (bar.time < msg_time)
    | Option.none => false
  else false

/-- `clear_stale_messages` from `src/main.py`: repeatedly `get_message` and
discard until a poll returns `None` (that `None` result is itself consumed). -/
def clear_stale_messages : List PollStep → List PollStep
  | [] => []
  | (_, PollEvent.noMessage _) :: rest => rest
  | (_, PollEvent.msg _) :: rest => clear_stale_messages rest

/-- `sync_with_achiever` from `src/main.py` (lines 192-251) over an explicit
poll trace. Per iteration: give up past the hard ceiling; on a poll timeout
re-check the ingestion mode and stop when paused/stopped; skip non-`message`
entries; on the reset sentinel drain the channel and stop; on the bar's own
id confirm; on a same-symbol/timeframe strictly-newer notification stop as
stale; otherwise keep waiting. Returns the outcome (if the trace decides one)
together with the channel trace left after returning. -/
def sync_with_achiever (bar : Bar) : List PollStep → Option SyncResult × List PollStep
  | [] => (Option.none, [])
  | (elapsed, ev) :: rest =>
    if MAX_SYNC_WAIT_SECONDS < elapsed then
      (some SyncResult.timedOut, (elapsed, ev) :: rest)
    else
      match ev with
      | PollEvent.noMessage statusMode =>
        if ingestion_mode_of statusMode = "stopped" ∨ ingestion_mode_of statusMode = "paused" then
          (some SyncResult.modeInterrupted, rest)
        else
          sync_with_achiever bar rest
      | PollEvent.msg m =>
        if m.type ≠ "message" then
          sync_with_achiever bar rest
        else if m.data = "PIPELINE_RESET" then
          (some SyncResult.reset, clear_stale_messages rest)
        else if m.data = bar.id then
          (some SyncResult.confirmed, rest)
        else if isStaleNotification bar m.data then
          (some SyncResult.stale, rest)
        else
          sync_with_achiever bar rest

/-- `_handle_consolidation_level_loss` from `src/main.py` (lines 92-125).
The `Option Consolidation` argument is the result of
`Consolidation.fetch_by_id(level.zone_id, r)`; the result is the record
written back by `sync_with_db`, or `Option.none` when the function returns
without writing. -/
def handle_consolidation_level_loss (level : Level) (loss_time : Int)
    (consolidation : Option Consolidation) : Option Consolidation :=
  match consolidation with
  | Option.none => Option.none
  | some c =>
    if c.completion ≠ "confirmed" then
      Option.none
    else if level.name = "block_zero" then
      some { c with direction := 0, broken_level := "support",
                    level_lost := 1, level_lost_time := loss_time }
    else if level.name = "block_one" then
      some { c with direction := 1, broken_level := "resistance",
                    level_lost := 1, level_lost_time := loss_time }
    else
      Option.none

/-- Modelled from the spec: the consolidation case of `post_process_zone`
(`mgot_utils`, not under `src/`), which runs on every affected zone after the
achievement step of the same bar. Per the specification a zone's `completion`
is one of incomplete / confirmed / complete-broken, the consolidation
transition only happens while `completion == confirmed`, and it is one-way
("once broken, a consolidation zone does not re-confirm"): a consolidation
that has recorded a breakout (`level_lost = 1`) leaves `confirmed`. -/
def post_process_zone_consolidation (c : Consolidation) : Consolidation :=
  if c.level_lost = 1 ∧ c.completion = "confirmed" then
    { c with completion := "complete" }
  else
    c

/-- The consolidation-zone state after one bar that carries one loss event for
it: the loss handler's write (if any) followed by the post-processing step. -/
def consolidation_after_bar (lvl : Level) (t : Int) (c : Consolidation) : Consolidation :=
  post_process_zone_consolidation
    ((handle_consolidation_level_loss lvl t (some c)).getD c)

/-- `collect_affected_zones` from `src/main.py`: the distinct `zone_id`s of
the lost then gained levels (the source collects them in a set; the set's
deduplication is embedded as `eraseDups`). -/
def collect_affected_zones (lost_levels gained_levels : List Level) : List String :=
  ((lost_levels ++ gained_levels).map Level.zone_id).eraseDups

/-- The external collaborators of the orchestrator: the ingestion-status
store and the `mgot_utils` operations whose bodies are not part of this
repository (`Bar.identify_achievements`, `Level.fetch_many`,
`Zone.fetch_many`, the batched pipeline writes of the achievement step and
the per-zone writes of `post_process_zone`). The write fields count the
store writes those calls issue. -/
structure ProcessEnv where
  status : String → Option String
  identify_achievements : Bar → List String × List String
  fetch_many : List String → List Level
  level_pipeline_writes : Bar → List Level → List Level → Nat
  fetch_zones : List String → List Zone
  zone_writes : Bar → List Zone → Nat

/-- `process_level_achievements` from `src/main.py` (lines 51-74): identify
crossings; when both crossing sets are empty return `([], [])` before any
pipeline command is queued or executed (zero store writes); otherwise fetch
the levels, run the batched mutation/tracking writes, and return the affected
zone ids with the modified levels. The second component counts store
writes. -/
def process_level_achievements (env : ProcessEnv) (bar : Bar) :
    (List String × List Level) × Nat :=
  let ids := env.identify_achievements bar
  let lost_lvl_ids := ids.1
  let gained_lvl_ids := ids.2
  if lost_lvl_ids = [] ∧ gained_lvl_ids = [] then
    (([], []), 0)
  else
    let lost_levels := if lost_lvl_ids ≠ [] then env.fetch_many lost_lvl_ids else []
    let gained_levels := if gained_lvl_ids ≠ [] then env.fetch_many gained_lvl_ids else []
    ((collect_affected_zones lost_levels gained_levels, lost_levels ++ gained_levels),
     env.level_pipeline_writes bar lost_levels gained_levels)

/-- `process_zone_updates` from `src/main.py` (lines 160-170): return `[]`
with no store interaction when `affected_zones` is empty; otherwise fetch the
zones and post-process each. The second component counts store writes. -/
def process_zone_updates (env : ProcessEnv) (bar : Bar)
    (affected_zones : List String) : List Zone × Nat :=
  if affected_zones = [] then ([], 0)
  else
    let zones := env.fetch_zones affected_zones
    (zones, env.zone_writes bar zones)

/-- The observable side effects of one `process_bar` call: store writes of the
achievement step, of the bar annotation (`bar.sync_with_db` + execute), and of
the zone updates, plus the snapshot-log and downstream-forward (`produce`)
calls. -/
structure BarEffects where
  level_writes : Nat
  bar_writes : Nat
  zone_writes : Nat
  snapshot_logs : Nat
  forwards : Nat
deriving DecidableEq

/-- No effect at all: zero writes, no snapshot, no forward. -/
def BarEffects.zero : BarEffects :=
  { level_writes := 0, bar_writes := 0, zone_writes := 0, snapshot_logs := 0, forwards := 0 }

/-- `process_bar` from `src/main.py` (lines 258-302): gate on the ingestion
mode (skip entirely when stopped/paused), run the achievement step, write the
annotated bar, update the affected zones, snapshot-log when anything was
modified, forward the bar downstream, then run the synchronization wait over
the poll trace. Returns the source's boolean outcome (`True` exactly when the
wait confirmed) together with the effects performed. -/
def process_bar (env : ProcessEnv) (bar : Bar) (trace : List PollStep) :
    Bool × BarEffects :=
  let mode := get_ingestion_mode env.status bar.symbol
  if mode = "stopped" ∨ mode = "paused" then
    (false, BarEffects.zero)
  else
    let pla := process_level_achievements env bar
    let affected_zone_ids := pla.1.1
    let modified_levels := pla.1.2
    let zu :=
      if affected_zone_ids ≠ [] then process_zone_updates env bar affected_zone_ids
      else ([], 0)
    let modified_zones := zu.1
    let snapshot := if modified_zones ≠ [] ∨ modified_levels ≠ [] then 1 else 0
    let sync_success := decide ((sync_with_achiever bar trace).1 = some SyncResult.confirmed)
    (sync_success,
     { level_writes := pla.2, bar_writes := 1, zone_writes := zu.2,
       snapshot_logs := snapshot, forwards := 1 })

/-- A poll step on which the wait loop keeps waiting: observed within the
hard ceiling, and either a quiet poll while the mode is neither stopped nor
paused, or a message that is not a `message` entry, or a `message` entry that
is neither the reset sentinel, nor the bar's own id, nor a stale newer-bar
notification. -/
def passiveEvent (bar : Bar) : PollStep → Bool
  | (elapsed, PollEvent.noMessage statusMode) =>
    decide (elapsed ≤ MAX_SYNC_WAIT_SECONDS ∧
      ¬(ingestion_mode_of statusMode = "stopped" ∨ ingestion_mode_of statusMode = "paused"))
  | (elapsed, PollEvent.msg m) =>
    decide (elapsed ≤ MAX_SYNC_WAIT_SECONDS ∧
      (m.type ≠ "message" ∨
        (m.data ≠ "PIPELINE_RESET" ∧ m.data ≠ bar.id ∧
          ¬ isStaleNotification bar m.data = true)))

/-- A poll step that confirms the bar: within the hard ceiling, a `message`
entry whose payload equals exactly the bar's id (and which is not the reset
sentinel, whose check precedes the id check — a simultaneous reset
observation is an interruption, not a match). -/
def confirmsEvent (bar : Bar) : PollStep → Bool
  | (elapsed, PollEvent.msg m) =>
    decide (elapsed ≤ MAX_SYNC_WAIT_SECONDS ∧ m.type = "message" ∧
      m.data ≠ "PIPELINE_RESET" ∧ m.data = bar.id)
  | (_, PollEvent.noMessage _) => false

/-- A poll step that delivered a buffered message (as opposed to a quiet
poll). -/
def isMessageStep : PollStep → Bool
  | (_, PollEvent.msg _) => true
  | (_, PollEvent.noMessage _) => false

/-- A concrete bar (the fixture bar of `conftest.py`, with a small time). -/
def barEx : Bar :=
  { id := "BTCUSDT:1h:bar:100", symbol := "BTCUSDT", timeframe := "1h", time := 100 }

/-- A concrete confirmed consolidation zone. -/
def consolEx : Consolidation :=
  { id := "BTCUSDT:1h:consolidation:10", completion := "confirmed", direction := 1,
    broken_level := "", level_lost := 0, level_lost_time := 0 }

/-- The support level of `consolEx`. -/
def levelZeroEx : Level :=
  { id := "BTCUSDT:1h:consolidation:10:block_zero",
    zone_id := "BTCUSDT:1h:consolidation:10", name := "block_zero" }

/-- The resistance level of `consolEx`. -/
def levelOneEx : Level :=
  { id := "BTCUSDT:1h:consolidation:10:block_one",
    zone_id := "BTCUSDT:1h:consolidation:10", name := "block_one" }

/-- `consolEx` after the breakout write of a `block_zero` loss at time 7. -/
def consolBrokenEx : Consolidation :=
  { id := "BTCUSDT:1h:consolidation:10", completion := "confirmed", direction := 0,
    broken_level := "support", level_lost := 1, level_lost_time := 7 }

/-- A concrete environment whose achievement query finds no crossing. -/
def envNoCross : ProcessEnv :=
  { status := fun _ => some "running",
    identify_achievements := fun _ => ([], []),
    fetch_many := fun _ => [],
    level_pipeline_writes := fun _ _ _ => 1,
    fetch_zones := fun _ => [],
    zone_writes := fun _ _ => 1 }

/-- A concrete environment whose ingestion status is paused. -/
def envPaused : ProcessEnv :=
  { status := fun _ => some "paused",
    identify_achievements := fun _ => (["BTCUSDT:1h:mth:1:block_zero"], []),
    fetch_many := fun _ => [levelZeroEx],
    level_pipeline_writes := fun _ _ _ => 1,
    fetch_zones := fun _ => [],
    zone_writes := fun _ _ => 1 }

theorem handle_loss_write_cases (lvl : Level) (t : Int) (c c' : Consolidation)
    (h : handle_consolidation_level_loss lvl t (some c) = some c') :
    c.completion = "confirmed" ∧
      ((lvl.name = "block_zero" ∧
          c' = { c with direction := 0, broken_level := "support",
                        level_lost := 1, level_lost_time := t }) ∨
        (lvl.name = "block_one" ∧
          c' = { c with direction := 1, broken_level := "resistance",
                        level_lost := 1, level_lost_time := t })) := by
  by_cases hc : c.completion = "confirmed"
  · by_cases h0 : lvl.name = "block_zero"
    · simp [handle_consolidation_level_loss, hc, h0] at h
      refine ⟨hc, Or.inl ⟨h0, ?_⟩⟩
      rw [hc]
      exact h.symm
    · by_cases h1 : lvl.name = "block_one"
      · simp [handle_consolidation_level_loss, hc, h0, h1] at h
        refine ⟨hc, Or.inr ⟨h1, ?_⟩⟩
        rw [hc]
        exact h.symm
      · simp [handle_consolidation_level_loss, hc, h0, h1] at h
  · simp [handle_consolidation_level_loss, hc] at h

/-- Claim C2: a consolidation zone is written by the level-loss handler only
while its completion equals `"confirmed"`; loss of the level named
`block_zero` writes direction `0` (bearish) and `broken_level = "support"`,
loss of `block_one` writes direction `1` (bullish) and
`broken_level = "resistance"`, and either write sets `level_lost = 1` and
`level_lost_time` to the loss event's time. -/
theorem C2_consolidation_break_fields (lvl : Level) (t : Int) (c : Consolidation) :
    (∀ c', handle_consolidation_level_loss lvl t (some c) = some c' →
      c.completion = "confirmed") ∧
    (c.completion = "confirmed" → lvl.name = "block_zero" →
      handle_consolidation_level_loss lvl t (some c)
        = some { c with direction := 0, broken_level := "support",
                        level_lost := 1, level_lost_time := t }) ∧
    (c.completion = "confirmed" → lvl.name = "block_one" →
      handle_consolidation_level_loss lvl t (some c)
        = some { c with direction := 1, broken_level := "resistance",
                        level_lost := 1, level_lost_time := t }) := by
  refine ⟨fun c' h => (handle_loss_write_cases lvl t c c' h).1, ?_, ?_⟩
  · intro hc h0
    simp [handle_consolidation_level_loss, hc, h0]
  · intro hc h1
    have h0 : ¬ lvl.name = "block_zero" := by
      rw [h1]; decide
    simp [handle_consolidation_level_loss, hc, h0, h1]

/-- Claim C3 (the completion update of the zone post-processing step is
modelled from the spec, see `post_process_zone_consolidation`): once a loss
event has written the breakout to a consolidation zone, every subsequent loss
event on that zone performs no write and leaves the zone's state unchanged. -/
theorem C3_consolidation_breaks_at_most_once (lvl : Level) (t : Int) (c c' : Consolidation)
    (h : handle_consolidation_level_loss lvl t (some c) = some c') :
    (∀ lvl2 t2,
        handle_consolidation_level_loss lvl2 t2 (some (post_process_zone_consolidation c'))
          = Option.none) ∧
    (∀ events : List (Level × Int),
        events.foldl (fun z e => consolidation_after_bar e.1 e.2 z)
            (post_process_zone_consolidation c')
          = post_process_zone_consolidation c') := by
  obtain ⟨hc, hcases⟩ := handle_loss_write_cases lvl t c c' h
  have hlost : c'.level_lost = 1 := by
    rcases hcases with ⟨_, rfl⟩ | ⟨_, rfl⟩ <;> rfl
  have hcomp : c'.completion = "confirmed" := by
    rcases hcases with ⟨_, rfl⟩ | ⟨_, rfl⟩ <;> simpa using hc
  have hpost : (post_process_zone_consolidation c').completion = "complete" := by
    simp [post_process_zone_consolidation, hlost, hcomp]
  have hnone : ∀ lvl2 t2,
      handle_consolidation_level_loss lvl2 t2 (some (post_process_zone_consolidation c'))
        = Option.none := by
    intro lvl2 t2
    simp [handle_consolidation_level_loss, hpost]
  refine ⟨hnone, ?_⟩
  have hid : ∀ z : Consolidation, z.completion = "complete" →
      post_process_zone_consolidation z = z := by
    intro z hz
    simp [post_process_zone_consolidation, hz]
  have hstable : ∀ lvl2 t2,
      consolidation_after_bar lvl2 t2 (post_process_zone_consolidation c')
        = post_process_zone_consolidation c' := by
    intro lvl2 t2
    unfold consolidation_after_bar
    rw [hnone lvl2 t2, Option.getD_none]
    exact hid _ hpost
  intro events
  induction events with
  | nil => rfl
  | cons e es ih => simp [List.foldl_cons, hstable e.1 e.2, ih]

theorem sync_skip (bar : Bar) (s : PollStep) (rest : List PollStep)
    (h : passiveEvent bar s = true) :
    sync_with_achiever bar (s :: rest) = sync_with_achiever bar rest := by
  obtain ⟨e, ev⟩ := s
  cases ev with
  | noMessage sm =>
    simp only [passiveEvent, decide_eq_true_eq] at h
    obtain ⟨h1, h2⟩ := h
    simp [sync_with_achiever, Nat.not_lt.mpr h1, h2]
  | msg m =>
    simp only [passiveEvent, decide_eq_true_eq] at h
    obtain ⟨h1, h2⟩ := h
    rcases h2 with ht | ⟨h3, h4, h5⟩
    · simp [sync_with_achiever, Nat.not_lt.mpr h1, ht]
    · by_cases ht : m.type = "message"
      · simp [sync_with_achiever, Nat.not_lt.mpr h1, ht, h3, h4, h5]
      · simp [sync_with_achiever, Nat.not_lt.mpr h1, ht]

theorem sync_confirm (bar : Bar) (s : PollStep) (rest : List PollStep)
    (h : confirmsEvent bar s = true) :
    sync_with_achiever bar (s :: rest) = (some SyncResult.confirmed, rest) := by
  obtain ⟨e, ev⟩ := s
  cases ev with
  | noMessage sm => simp [confirmsEvent] at h
  | msg m =>
    simp only [confirmsEvent, decide_eq_true_eq] at h
    obtain ⟨h1, h2, h3, h4⟩ := h
    have h3' : ¬ bar.id = "PIPELINE_RESET" := h4 ▸ h3
    simp [sync_with_achiever, Nat.not_lt.mpr h1, h2, h3, h3', h4]

theorem sync_nonconfirm (bar : Bar) (s : PollStep) (rest : List PollStep)
    (hp : ¬ passiveEvent bar s = true) (hc : ¬ confirmsEvent bar s = true) :
    (sync_with_achiever bar (s :: rest)).1 ≠ some SyncResult.confirmed := by
  obtain ⟨e, ev⟩ := s
  by_cases he : MAX_SYNC_WAIT_SECONDS < e
  · cases ev <;> simp [sync_with_achiever, he]
  · have he' : e ≤ MAX_SYNC_WAIT_SECONDS := Nat.not_lt.mp he
    cases ev with
    | noMessage sm =>
      by_cases hm : ingestion_mode_of sm = "stopped" ∨ ingestion_mode_of sm = "paused"
      · simp [sync_with_achiever, he, hm]
      · exact absurd (by simp only [passiveEvent, decide_eq_true_eq]; exact ⟨he', hm⟩) hp
    | msg m =>
      by_cases ht : m.type = "message"
      · by_cases hr : m.data = "PIPELINE_RESET"
        · simp [sync_with_achiever, he, ht, hr]
        · by_cases hid : m.data = bar.id
          · exact absurd
              (by simp only [confirmsEvent, decide_eq_true_eq]; exact ⟨he', ht, hr, hid⟩) hc
          · by_cases hst : isStaleNotification bar m.data = true
            · simp [sync_with_achiever, he, ht, hr, hid, hst]
            · exact absurd
                (by simp only [passiveEvent, decide_eq_true_eq]
                    exact ⟨he', Or.inr ⟨hr, hid, hst⟩⟩) hp
      · exact absurd
          (by simp only [passiveEvent, decide_eq_true_eq]; exact ⟨he', Or.inl ht⟩) hp

theorem sync_over_passive_front (bar : Bar) (pre rest : List PollStep)
    (h : ∀ p ∈ pre, passiveEvent bar p = true) :
    sync_with_achiever bar (pre ++ rest) = sync_with_achiever bar rest := by
  induction pre with
  | nil => rfl
  | cons q qs ih =>
    rw [List.cons_append, sync_skip bar q _ (h q (by simp))]
    exact ih fun p hp => h p (by simp [hp])

/-- Claim C1: the synchronization wait confirms (the source's `True`) exactly
when some poll step delivers a `message` whose payload equals exactly the
bar's id, observed within the hard 60s ceiling, and every step before it is
passive — within the ceiling and neither a reset sentinel, nor a stale
newer-bar notification, nor a quiet poll in paused/stopped mode. In every
other case the wait does not confirm. -/
theorem C1_sync_confirmed_iff (bar : Bar) (trace : List PollStep) :
    (sync_with_achiever bar trace).1 = some SyncResult.confirmed ↔
      ∃ pre s post, trace = pre ++ s :: post ∧ confirmsEvent bar s = true ∧
        ∀ p ∈ pre, passiveEvent bar p = true := by
  induction trace with
  | nil =>
    constructor
    · intro h
      simp [sync_with_achiever] at h
    · rintro ⟨pre, s, post, hdec, -, -⟩
      exact absurd hdec (by cases pre <;> simp)
  | cons s rest ih =>
    by_cases hc : confirmsEvent bar s = true
    · rw [sync_confirm bar s rest hc]
      constructor
      · intro _
        exact ⟨[], s, rest, rfl, hc, by simp⟩
      · intro _
        rfl
    · by_cases hp : passiveEvent bar s = true
      · rw [sync_skip bar s rest hp, ih]
        constructor
        · rintro ⟨pre, s', post, hdec, hconf, hpass⟩
          refine ⟨s :: pre, s', post, by rw [hdec, List.cons_append], hconf, ?_⟩
          intro p hmem
          rcases List.mem_cons.mp hmem with rfl | hmem
          · exact hp
          · exact hpass p hmem
        · rintro ⟨pre, s', post, hdec, hconf, hpass⟩
          cases pre with
          | nil =>
            simp only [List.nil_append, List.cons.injEq] at hdec
            obtain ⟨rfl, rfl⟩ := hdec
            exact absurd hconf hc
          | cons q pre' =>
            simp only [List.cons_append, List.cons.injEq] at hdec
            obtain ⟨rfl, hrest⟩ := hdec
            exact ⟨pre', s', post, hrest, hconf, fun p hm => hpass p (List.mem_cons_of_mem _ hm)⟩
      · constructor
        · intro h
          exact absurd h (sync_nonconfirm bar s rest hp hc)
        · rintro ⟨pre, s', post, hdec, hconf, hpass⟩
          cases pre with
          | nil =>
            simp only [List.nil_append, List.cons.injEq] at hdec
            obtain ⟨rfl, rfl⟩ := hdec
            exact absurd hconf hc
          | cons q pre' =>
            simp only [List.cons_append, List.cons.injEq] at hdec
            obtain ⟨rfl, -⟩ := hdec
            exact absurd (hpass s (List.mem_cons_self s pre')) hp

/-- Claim C4: when the achievement query finds no crossing for the bar
(`identify_achievements` returns two empty sets), the achievement step
returns `([], [])` with zero store writes, and the zone-update step on the
resulting empty affected-zone list also performs no store interaction. -/
theorem C4_no_crossings_no_writes (env : ProcessEnv) (bar : Bar)
    (h : env.identify_achievements bar = ([], [])) :
    process_level_achievements env bar = (([], []), 0) ∧
    process_zone_updates env bar [] = ([], 0) := by
  constructor
  · simp [process_level_achievements, h]
  · simp [process_zone_updates]

theorem C4_no_crossings_no_writes_witness :
    process_level_achievements envNoCross barEx = (([], []), 0) ∧
    process_zone_updates envNoCross barEx [] = ([], 0) :=
  C4_no_crossings_no_writes envNoCross barEx rfl

/-- Claim C5: a reset sentinel observed within the ceiling (after any passive
prefix) makes the wait drain the channel through `clear_stale_messages` and
return the reset interruption (a returned outcome, not an exception), and the
drain discards every buffered notification up to the quiet poll that ends the
drain, so the next wait starts from the remaining (clean) trace. -/
theorem C5_reset_drains_channel (bar : Bar) (pre : List PollStep) (e : Nat)
    (rest : List PollStep)
    (hpre : ∀ p ∈ pre, passiveEvent bar p = true)
    (he : e ≤ MAX_SYNC_WAIT_SECONDS) :
    sync_with_achiever bar
        (pre ++ (e, PollEvent.msg { type := "message", data := "PIPELINE_RESET" }) :: rest)
      = (some SyncResult.reset, clear_stale_messages rest) ∧
    ∀ buffered : List PollStep, ∀ e2 : Nat, ∀ sm : Option String, ∀ future : List PollStep,
      (∀ p ∈ buffered, isMessageStep p = true) →
      clear_stale_messages (buffered ++ (e2, PollEvent.noMessage sm) :: future) = future := by
  constructor
  · rw [sync_over_passive_front bar pre _ hpre]
    simp [sync_with_achiever, Nat.not_lt.mpr he]
  · intro buffered e2 sm future hbuf
    induction buffered with
    | nil => rfl
    | cons b bs ih =>
      obtain ⟨eb, evb⟩ := b
      cases evb with
      | noMessage smb => simpa [isMessageStep] using hbuf (eb, PollEvent.noMessage smb) (by simp)
      | msg mb =>
        rw [List.cons_append]
        exact ih fun p hp => hbuf p (by simp [hp])

theorem C5_reset_drains_channel_witness :
    sync_with_achiever barEx
        [(0, PollEvent.noMessage (some "running")),
         (5, PollEvent.msg { type := "message", data := "PIPELINE_RESET" }),
         (5, PollEvent.msg { type := "message", data := "ETHUSDT:1h:bar:90" }),
         (5, PollEvent.noMessage (some "running")),
         (10, PollEvent.noMessage (some "running"))]
      = (some SyncResult.reset, [(10, PollEvent.noMessage (some "running"))]) := by
  have h := C5_reset_drains_channel barEx [(0, PollEvent.noMessage (some "running"))] 5
    [(5, PollEvent.msg { type := "message", data := "ETHUSDT:1h:bar:90" }),
     (5, PollEvent.noMessage (some "running")),
     (10, PollEvent.noMessage (some "running"))]
    (by intro p hp; simp at hp; subst hp; decide) (by decide)
  rw [List.singleton_append] at h
  rw [h.1]
  decide

/-- Claim C6: a quiet polling interval while the bar's symbol's ingestion
mode is paused or stopped ends the wait as a mode interruption at that poll,
and the polling interval (5s) is well below the hard ceiling (60s). -/
theorem C6_mode_interrupts_quiet_poll (bar : Bar) (sm : Option String) (e : Nat)
    (rest : List PollStep)
    (hm : ingestion_mode_of sm = "paused" ∨ ingestion_mode_of sm = "stopped")
    (he : e ≤ MAX_SYNC_WAIT_SECONDS) :
    sync_with_achiever bar ((e, PollEvent.noMessage sm) :: rest)
      = (some SyncResult.modeInterrupted, rest) ∧
    SYNC_TIMEOUT_SECONDS < MAX_SYNC_WAIT_SECONDS := by
  refine ⟨?_, by decide⟩
  rcases hm with h | h <;> simp [sync_with_achiever, Nat.not_lt.mpr he, h]

theorem C6_mode_interrupts_quiet_poll_witness :
    sync_with_achiever barEx [(0, PollEvent.noMessage (some "paused"))]
      = (some SyncResult.modeInterrupted, []) :=
  (C6_mode_interrupts_quiet_poll barEx (some "paused") 0 [] (Or.inl rfl) (by decide)).1

/-- Claim C7: a `message` within the ceiling (after any passive prefix) whose
payload parses to the bar's own symbol and timeframe with a strictly later
bar time — and which is neither the reset sentinel nor the bar's exact id —
ends the wait as stale instead of blocking further. -/
theorem C7_stale_newer_bar_abandons (bar : Bar) (pre : List PollStep) (e : Nat)
    (m : Msg) (rest : List PollStep)
    (hpre : ∀ p ∈ pre, passiveEvent bar p = true)
    (he : e ≤ MAX_SYNC_WAIT_SECONDS)
    (ht : m.type = "message")
    (hr : m.data ≠ "PIPELINE_RESET")
    (hid : m.data ≠ bar.id)
    (hlen : 4 ≤ (splitOnColon m.data).length)
    (hsym : (splitOnColon m.data).getD 0 "" = bar.symbol)
    (htf : (splitOnColon m.data).getD 1 "" = bar.timeframe)
    (htime : ∃ msg_time, parseIntPy ((splitOnColon m.data).getD 3 "") = some msg_time ∧
      bar.time < msg_time) :
    sync_with_achiever bar (pre ++ (e, PollEvent.msg m) :: rest)
      = (some SyncResult.stale, rest) := by
  rw [sync_over_passive_front bar pre _ hpre]
  obtain ⟨mt, hparse, hlt⟩ := htime
  have hstale : isStaleNotification bar m.data = true := by
    simp only [List.getD_eq_getElem?_getD] at hparse hsym htf
    simp [isStaleNotification, List.getD_eq_getElem?_getD, hlen, hparse, hsym, htf, hlt]
  simp [sync_with_achiever, Nat.not_lt.mpr he, ht, hr, hid, hstale]

theorem C7_stale_newer_bar_abandons_witness :
    sync_with_achiever barEx
        [(0, PollEvent.msg { type := "message", data := "BTCUSDT:1h:bar:200" })]
      = (some SyncResult.stale, []) :=
  C7_stale_newer_bar_abandons barEx [] 0
    { type := "message", data := "BTCUSDT:1h:bar:200" } []
    (by intro p hp; simp at hp) (by decide) rfl (by decide) (by decide)
    (by decide) (by decide) (by decide) ⟨200, by decide, by decide⟩

theorem C3_consolidation_breaks_at_most_once_witness :
    handle_consolidation_level_loss levelOneEx 9
        (some (post_process_zone_consolidation consolBrokenEx)) = Option.none :=
  (C3_consolidation_breaks_at_most_once levelZeroEx 7 consolEx consolBrokenEx (by decide)).1
    levelOneEx 9

/-- Claim C8: when the bar's symbol's ingestion mode is stopped or paused on
arrival, `process_bar` skips the bar entirely — no achievement writes, no bar
annotation, no zone writes, no snapshot log and no downstream forward — and
reports the bar as not processed. -/
theorem C8_mode_gate_skips_bar (env : ProcessEnv) (bar : Bar) (trace : List PollStep)
    (h : get_ingestion_mode env.status bar.symbol = "stopped" ∨
      get_ingestion_mode env.status bar.symbol = "paused") :
    process_bar env bar trace = (false, BarEffects.zero) := by
  rcases h with h | h <;> simp [process_bar, h]

theorem C8_mode_gate_skips_bar_witness :
    process_bar envPaused barEx [] = (false, BarEffects.zero) :=
  C8_mode_gate_skips_bar envPaused barEx [] (Or.inr (by decide))

/-- Claim C9 counterexample: the payload `"BTCUSDT:1h:bar:200:x"` is not a
parsable bar id — five colon-separated segments instead of four, and its
final (time-position) segment is not an integer — yet the wait does not
treat it as non-matching and keep waiting: because the payload still has a
parsable integer in its fourth segment, the newer-bar test fires and the
wait ends with the stale outcome instead of continuing like the rest of the
trace. -/
theorem C9_counterexample_extra_segment_not_ignored :
    (splitOnColon "BTCUSDT:1h:bar:200:x").length = 5 ∧
    parseIntPy ((splitOnColon "BTCUSDT:1h:bar:200:x").getD 4 "") = Option.none ∧
    sync_with_achiever barEx
        [(0, PollEvent.msg { type := "message", data := "BTCUSDT:1h:bar:200:x" })]
      = (some SyncResult.stale, []) ∧
    sync_with_achiever barEx
        [(0, PollEvent.msg { type := "message", data := "BTCUSDT:1h:bar:200:x" })]
      ≠ sync_with_achiever barEx [] := by
  decide

/-- Claim C9 as amended: a notification payload with fewer than four
colon-separated segments, or whose fourth segment does not parse as an
integer, is treated as non-matching and the wait continues without raising
(the failing parse is the caught-and-ignored branch of the source). A payload
with at least four segments and an integer fourth segment is not ignored even
when it is not a well-formed bar id: the newer-bar test may end the wait as
stale (see the counterexample). -/
theorem C9_malformed_payload_ignored (bar : Bar) (e : Nat) (m : Msg) (rest : List PollStep)
    (he : e ≤ MAX_SYNC_WAIT_SECONDS)
    (ht : m.type = "message")
    (hr : m.data ≠ "PIPELINE_RESET")
    (hid : m.data ≠ bar.id)
    (hmal : (splitOnColon m.data).length < 4 ∨
      parseIntPy ((splitOnColon m.data).getD 3 "") = Option.none) :
    sync_with_achiever bar ((e, PollEvent.msg m) :: rest) = sync_with_achiever bar rest := by
  have hstale : isStaleNotification bar m.data = false := by
    rcases hmal with h | h
    · simp [isStaleNotification, Nat.not_le.mpr h]
    · by_cases hlen : 4 ≤ (splitOnColon m.data).length
      · simp only [List.getD_eq_getElem?_getD] at h
        simp [isStaleNotification, List.getD_eq_getElem?_getD, hlen, h]
      · simp [isStaleNotification, hlen]
  simp [sync_with_achiever, Nat.not_lt.mpr he, ht, hr, hid, hstale]

theorem C9_malformed_payload_ignored_witness :
    sync_with_achiever barEx [(0, PollEvent.msg { type := "message", data := "garbage" })]
      = sync_with_achiever barEx [] :=
  C9_malformed_payload_ignored barEx 0 { type := "message", data := "garbage" } []
    (by decide) rfl (by decide) (by decide) (Or.inl (by decide))

/-- Claim C10: a symbol with no ingestion-status record (or no `mode` field)
reads as mode `"stopped"`; consequently the run-mode gate skips bars for such
a symbol, and a quiet poll observing the absent record interrupts the
synchronization wait. -/
theorem C10_missing_status_defaults_stopped (status : String → Option String)
    (symbol : String) (h : status symbol = Option.none) :
    get_ingestion_mode status symbol = "stopped" ∧
    (∀ env : ProcessEnv, ∀ bar : Bar, ∀ trace : List PollStep,
      env.status = status → bar.symbol = symbol →
      process_bar env bar trace = (false, BarEffects.zero)) ∧
    (∀ bar : Bar, ∀ e : Nat, ∀ rest : List PollStep, e ≤ MAX_SYNC_WAIT_SECONDS →
      sync_with_achiever bar ((e, PollEvent.noMessage Option.none) :: rest)
        = (some SyncResult.modeInterrupted, rest)) := by
  have hmode : get_ingestion_mode status symbol = "stopped" := by
    simp [get_ingestion_mode, h, ingestion_mode_of]
  refine ⟨hmode, ?_, ?_⟩
  · intro env bar trace henv hsym
    have hg : get_ingestion_mode env.status bar.symbol = "stopped" := by
      rw [henv, hsym]
      exact hmode
    simp [process_bar, hg]
  · intro bar e rest he
    simp [sync_with_achiever, Nat.not_lt.mpr he, ingestion_mode_of]

theorem C10_missing_status_defaults_stopped_witness :
    get_ingestion_mode (fun _ => Option.none) "BTCUSDT" = "stopped" :=
  (C10_missing_status_defaults_stopped (fun _ => Option.none) "BTCUSDT" rfl).1
